import Mathlib

/-!
Shallow embedding of `pcsf_python/pcsftools.py`, a convenience layer over an
external PCSF solver (OmicsIntegrator) and the networkx graph library.

Modelling conventions:
* pandas DataFrames become explicit column-name/row-list structures;
* Python floats become `ℚ`;
* Python dicts become association lists with first-occurrence update
  (`dictLookup` / `dictInsert`), which is exactly Python-dict behaviour since
  keys are unique by construction;
* fallible Python code returns `Except PyExn _`; a `.error` value is an
  uncaught exception propagating out of the function;
* the module's global namespace matters: `pcsftools.py` imports exactly
  `pd, itertools, nx, graph, random, datetime`.  Evaluating any other free
  name raises `NameError`.  This is modelled by `nameDefined`, listing the
  module-level bindings and, per function, its local bindings;
* `random.randrange` draws are modelled by an ambient stream `ℕ → ℕ` of
  pseudo-random numbers, reduced modulo the current range; quantifying over
  all streams quantifies over every possible behaviour of the module's
  unseeded process-wide randomness;
* console output (`print`) is modelled by a `log` field where a claim
  depends on it; `print_prog` progress output is purely observational and
  not tracked.
-/

set_option linter.unusedVariables false

namespace PcsfTools

/-- Exceptions that the modelled code can raise. -/
inductive PyExn where
  | nameError (missing : String)
  | assertionError
  | valueError
  | nodeNotFound
  | zeroDivisionError
deriving DecidableEq, Repr

/-- Python-dict lookup on an association list (keys are unique by
construction, matching dict semantics). -/
def dictLookup {K V : Type} [DecidableEq K] : List (K × V) → K → Option V
  | [], _ => none
  | p :: ps, k => if p.1 = k then some p.2 else dictLookup ps k

/-- Python-dict update: replace the value at an existing key in place,
otherwise append the new binding. -/
def dictInsert {K V : Type} [DecidableEq K] : List (K × V) → K → V → List (K × V)
  | [], k, v => [(k, v)]
  | p :: ps, k, v => if p.1 = k then (k, v) :: ps else p :: dictInsert ps k v

/-- Names bound at module level in `pcsftools.py`: its six imports
(`import pandas as pd`, `import itertools`, `import networkx as nx`,
`import graph`, `import random`, `from _datetime import datetime`) and its
eight function definitions.  Note that neither `community` nor
`NetworkXNoPath` nor `networkx` is bound. -/
def pcsftoolsModuleNames : List String :=
  ["pd", "itertools", "nx", "graph", "random", "datetime",
   "run_pcsf", "_get_similarity", "get_path_costs", "convert_to_gene_symbol",
   "convert_to_string_id", "get_network_details", "get_graph_edit_distance",
   "make_solution_similarity_matrix"]

/-- Whether a free name occurring inside a function body resolves, given the
function's local bindings; an unresolved name raises `NameError`. -/
def nameDefined (localNames : List String) (n : String) : Bool :=
  localNames.contains n || pcsftoolsModuleNames.contains n

/-- Jaccard similarity between two lists, `_get_similarity` in the source:
`len(set(a).intersection(set(b))) / len(set(a).union(set(b)))`.
Python `/` raises `ZeroDivisionError` when the union is empty. -/
def _get_similarity (a b : List String) : Except PyExn ℚ :=
  if (a.toFinset ∪ b.toFinset).card = 0 then
    Except.error PyExn.zeroDivisionError
  else
    Except.ok (((a.toFinset ∩ b.toFinset).card : ℚ) / ((a.toFinset ∪ b.toFinset).card : ℚ))

/-! ## Graph construction (`nx.from_pandas_edgelist`) and
`nx.dijkstra_path_length`

networkx is an external collaborator; the spec treats its algorithms as
black boxes computing the shortest weighted path length.  They are embedded
here executably: an undirected graph with per-edge attribute dicts, and
shortest-path distances computed by exhaustive relaxation (`n` rounds of
Bellman–Ford), which on the nonnegative weights Dijkstra is defined for
yields exactly the shortest weighted path lengths. -/

/-- One undirected networkx edge with its attribute dict. -/
structure PyEdge where
  u : String
  v : String
  attrs : List (String × ℚ)
deriving DecidableEq, Repr

/-- An undirected networkx graph: insertion-ordered node list and edge list. -/
structure PyGraph where
  nodes : List String
  edges : List PyEdge
deriving DecidableEq, Repr

/-- Add a node if not yet present (networkx keeps insertion order). -/
def insertNode (ns : List String) (x : String) : List String :=
  if x ∈ ns then ns else ns ++ [x]

/-- Whether an undirected edge joins `u` and `v` (in either orientation). -/
def sameEdge (e : PyEdge) (u v : String) : Bool :=
  (e.u == u && e.v == v) || (e.u == v && e.v == u)

/-- Add an edge to the edge list; re-adding an existing undirected edge
updates its attribute dict, as `Graph.add_edge` does. -/
def upsertEdge (es : List PyEdge) (u v : String) (attrName : String) (w : ℚ) : List PyEdge :=
  match es with
  | [] => [⟨u, v, [(attrName, w)]⟩]
  | e :: rest =>
    if sameEdge e u v then ⟨e.u, e.v, dictInsert e.attrs attrName w⟩ :: rest
    else e :: upsertEdge rest u v attrName w

/-- An adjacency-list DataFrame: three named columns (head, tail,
weight/cost) and its rows. -/
structure AdjList where
  sourceCol : String
  targetCol : String
  weightCol : String
  rows : List (String × String × ℚ)

/-- `nx.from_pandas_edgelist(adj_list, source=adj_list.columns[0],
target=adj_list.columns[1], edge_attr=adj_list.columns[2])`: build the
undirected graph row by row, storing the third column as an edge attribute
named after that column. -/
def from_pandas_edgelist (adj_list : AdjList) : PyGraph :=
  adj_list.rows.foldl
    (fun G r =>
      { nodes := insertNode (insertNode G.nodes r.1) r.2.1,
        edges := upsertEdge G.edges r.1 r.2.1 adj_list.weightCol r.2.2 })
    ⟨[], []⟩

/-- The weight `dijkstra_path_length` uses for an edge when called with
`weight="cost"`: the edge's `"cost"` attribute, defaulting to `1` when the
edge has no attribute of that name. -/
def edgeCost (e : PyEdge) : ℚ :=
  (dictLookup e.attrs "cost").getD 1

/-- Both orientations of every undirected edge, with its Dijkstra weight. -/
def directedEdges (G : PyGraph) : List (String × String × ℚ) :=
  G.edges.foldr (fun e acc => (e.u, e.v, edgeCost e) :: (e.v, e.u, edgeCost e) :: acc) []

/-- Relax the tentative-distance table towards node `v` with candidate
distance `c`. -/
def relaxTo (d : List (String × ℚ)) (v : String) (c : ℚ) : List (String × ℚ) :=
  match dictLookup d v with
  | none => d ++ [(v, c)]
  | some c0 => if c < c0 then dictInsert d v c else d

/-- One full round of relaxation over all directed edges. -/
def relaxAll (es : List (String × String × ℚ)) (d : List (String × ℚ)) : List (String × ℚ) :=
  es.foldl
    (fun d e =>
      match dictLookup d e.1 with
      | none => d
      | some c => relaxTo d e.2.1 (c + e.2.2))
    d

/-- One round of relaxation per node of the graph (structural recursion on
the node list, i.e. `length`-many rounds), enough for every shortest
distance to stabilise. -/
def relaxTimes (es : List (String × String × ℚ)) : List String → List (String × ℚ) → List (String × ℚ)
  | [], d => d
  | _ :: rest, d => relaxTimes es rest (relaxAll es d)

/-- Exceptions `nx.dijkstra_path_length` can raise. -/
inductive NxError where
  | networkXNoPath
  | nodeNotFound
deriving DecidableEq, Repr

/-- `nx.dijkstra_path_length(G, home, dest, weight="cost")`: the shortest
weighted path length from `home` to `dest`; raises `NodeNotFound` when the
source is not a node of `G` and `NetworkXNoPath` when no path reaches
`dest`. -/
def dijkstra_path_length (G : PyGraph) (home dest : String) : Except NxError ℚ :=
  if home ∈ G.nodes then
    match dictLookup (relaxTimes (directedEdges G) G.nodes [(home, 0)]) dest with
    | some c => Except.ok c
    | none => Except.error NxError.networkXNoPath
  else Except.error NxError.nodeNotFound

/-! ## `get_path_costs` -/

/-- An unordered seed pair, in the orientation `itertools.combinations`
produces it. -/
abbrev SPair := String × String

/-- The path-cost dictionary: keys are `(home, dest)` pairs. -/
abbrev PathDict := List (SPair × ℚ)

/-- Local names bound inside `get_path_costs` (parameters and assigned
variables).  `NetworkXNoPath` is not among them, nor is it a module-level
name: the source's `except NetworkXNoPath:` clause names an identifier that
was never imported. -/
def get_path_costsLocals : List String :=
  ["seeds", "adj_list", "print_prog", "sampled_proportion", "G", "combs",
   "path_costs", "i", "samples", "home", "dest"]

/-- `combs.pop(random.randrange(len(combs)))` on a non-empty pending list
`c :: cs`: the drawn element and the remaining list.  The random draw is the
next stream value reduced modulo the current length. -/
def popRandom (stream : ℕ → ℕ) (idx : ℕ) (c : SPair) (cs : List SPair) : SPair × List SPair :=
  ((c :: cs).getD (stream idx % (c :: cs).length) c,
   (c :: cs).eraseIdx (stream idx % (c :: cs).length))

/-- The sampling loop `for i in range(samples)` of `get_path_costs`: pop a
random pending pair, attempt its shortest-path cost, store it.  Returns the
list of pairs for which a shortest-path computation was attempted, together
with the loop's outcome.  A `NetworkXNoPath` raised by Dijkstra is matched
against the unbound name `NetworkXNoPath`, so the `continue` is never
reached and a `NameError` propagates instead; `random.randrange(0)` (empty
pending list) raises `ValueError`. -/
def pcLoop (G : PyGraph) (stream : ℕ → ℕ) :
    ℕ → ℕ → List SPair → PathDict → List SPair × Except PyExn PathDict
  | 0, _, _, acc => ([], Except.ok acc)
  | _ + 1, _, [], _ => ([], Except.error PyExn.valueError)
  | k + 1, idx, c :: cs, acc =>
    let pick := popRandom stream idx c cs
    match dijkstra_path_length G pick.1.1 pick.1.2 with
    | Except.ok cost =>
      let rest := pcLoop G stream k (idx + 1) pick.2 (dictInsert acc pick.1 cost)
      (pick.1 :: rest.1, rest.2)
    | Except.error NxError.networkXNoPath =>
      if nameDefined get_path_costsLocals "NetworkXNoPath" then
        -- the intended `continue`: skip the pair, keep sampling
        let rest := pcLoop G stream k (idx + 1) pick.2 acc
        (pick.1 :: rest.1, rest.2)
      else ([pick.1], Except.error (PyExn.nameError "NetworkXNoPath"))
    | Except.error NxError.nodeNotFound => ([pick.1], Except.error PyExn.nodeNotFound)

/-- All `itertools.combinations(seeds, 2)` pairs, in itertools order. -/
def combinations2 : List String → List SPair
  | [] => []
  | x :: xs => xs.map (fun y => (x, y)) ++ combinations2 xs

/-- Observable behaviour of one `get_path_costs` call: the console log (the
validation message, when printed), the pairs for which a shortest-path
computation was attempted, and the outcome — `Except.ok none` models
`return None`, `Except.ok (some d)` a returned dict, `Except.error e` an
uncaught exception. -/
structure PCResult where
  log : List String
  attempted : List SPair
  outcome : Except PyExn (Option PathDict)

/-- `get_path_costs(seeds, adj_list, print_prog, sampled_proportion)`.
Checks the proportion is in `(0, 1]` (on failure prints a message and
returns `None`), builds the graph from the adjacency list, enumerates all
seed combinations, and samples `int(len(combs) * sampled_proportion)` of
them without replacement, recording each pair's Dijkstra cost. -/
def get_path_costs (seeds : List String) (adj_list : AdjList) (print_prog : Bool)
    (sampled_proportion : ℚ) (stream : ℕ → ℕ) : PCResult :=
  if 0 < sampled_proportion ∧ sampled_proportion ≤ 1 then
    let G := from_pandas_edgelist adj_list
    let combs := combinations2 seeds
    let samples := (Int.floor ((combs.length : ℚ) * sampled_proportion)).toNat
    let res := pcLoop G stream samples 0 combs []
    { log := [], attempted := res.1, outcome := Except.map some res.2 }
  else
    { log := ["Sampled proportion must be in (0, 1]"], attempted := [], outcome := Except.ok none }

/-- The spec's end-to-end adjacency table: edges `(A,B,1)` and `(B,C,2)`,
with the weight column named `cost`. -/
def adjABC : AdjList := ⟨"protein1", "protein2", "cost", [("A", "B", 1), ("B", "C", 2)]⟩

/-- An adjacency table whose graph leaves the seeds `A` and `B` in two
different components. -/
def adjSplit : AdjList := ⟨"protein1", "protein2", "cost", [("A", "X", 1), ("B", "Y", 1)]⟩

/-- An adjacency table connecting seeds `A,B` but leaving seed `C` in a
separate component. -/
def adjPartial : AdjList := ⟨"protein1", "protein2", "cost", [("A", "B", 1), ("C", "D", 1)]⟩

/-- A single-edge adjacency table joining `A` and `B`. -/
def adjOne : AdjList := ⟨"protein1", "protein2", "cost", [("A", "B", 1)]⟩

/-! ## ID mapping (`convert_to_gene_symbol`, `convert_to_string_id`)

The tab-separated map file is modelled already parsed: one `(STRING,
display name)` row per line.  `dict(zip(col1, col2))` builds the lookup by
successive insertion, so a repeated key keeps its later value. -/

/-- One row of the ID-map file: its `STRING` and `display name` columns. -/
structure MapRow where
  string_id : String
  display_name : String

/-- `dict(zip(xs, ys))`: successive insertion into an initially empty dict. -/
def dictOfPairs (ps : List (String × String)) : List (String × String) :=
  ps.foldl (fun d p => dictInsert d p.1 p.2) []

/-- `convert_to_gene_symbol(string_ids, map_path)`: translate STRING IDs to
gene symbols; an ID missing from the map is kept unchanged (the source's
`except KeyError` branch). -/
def convert_to_gene_symbol (string_ids : List String) (mapRows : List MapRow) : List String :=
  let string2gene := dictOfPairs (mapRows.map fun r => (r.string_id, r.display_name))
  string_ids.map fun s => (dictLookup string2gene s).getD s

/-- `convert_to_string_id(genes, map_path)`: the inverse translation, with
the same pass-through policy for unmapped gene symbols. -/
def convert_to_string_id (genes : List String) (mapRows : List MapRow) : List String :=
  let gene2string := dictOfPairs (mapRows.map fun r => (r.display_name, r.string_id))
  genes.map fun g => (dictLookup gene2string g).getD g

/-! ## `run_pcsf`

The PCSF solve itself (`graph.Graph`, `prepare_prizes`, `pcsf`,
`output_forest_as_networkx`) is the external OmicsIntegrator package: the
model therefore starts from the solution forest that pipeline produced, and
quantifying over all forests covers every prize table / adjacency table /
parameter set on which the external solver succeeds.  The networkx
centrality and community-detection algorithms are likewise external and are
passed in as opaque per-node scoring functions. -/

/-- A node-attribute value: centralities are floats, the Louvain label is
stored stringified. -/
inductive PyVal where
  | num (q : ℚ)
  | str (s : String)
deriving DecidableEq, Repr

/-- A networkx graph as `run_pcsf` sees it: nodes, edges, and per-node
attribute dicts. -/
structure NxForest where
  nodes : List String
  edges : List (String × String)
  attrs : List (String × List (String × PyVal))
deriving DecidableEq, Repr

/-- Merge one attribute binding into one node's attribute dict. -/
def nodeAttrInsert (a : List (String × List (String × PyVal))) (n attrName : String)
    (v : PyVal) : List (String × List (String × PyVal)) :=
  match dictLookup a n with
  | some m => dictInsert a n (dictInsert m attrName v)
  | none => dictInsert a n [(attrName, v)]

/-- `nx.set_node_attributes(F, {node: {attrName: value}})` over a list of
per-node updates. -/
def set_node_attributes (F : NxForest) (upd : List (String × String × PyVal)) : NxForest :=
  { F with attrs := upd.foldl (fun a u => nodeAttrInsert a u.1 u.2.1 u.2.2) F.attrs }

/-- Local names bound inside `run_pcsf`.  The body's final attribute block
evaluates `community.best_partition(resultForest)`, and `community` is
neither a local nor a module-level name (it was never imported). -/
def run_pcsfLocals : List String :=
  ["prizes", "ppi", "params", "time", "add_attribs", "now", "current_time",
   "pcsfGraph", "verts", "edgs", "resultForest", "node", "b_centrality",
   "ev_centrality", "deg_centrality", "cluster"]

/-- `run_pcsf(prizes, ppi, params, time, add_attribs)` from the point where
the external solver has produced `resultForest`.  With `add_attribs` set
(the default), it attaches betweenness, eigenvector and degree centrality
and then evaluates the free name `community`, which raises `NameError`. -/
def run_pcsf (resultForest : NxForest)
    (betweenness_centrality eigenvector_centrality degree_centrality :
      NxForest → String → ℚ)
    (best_partition : NxForest → String → ℕ)
    (time add_attribs : Bool) : Except PyExn NxForest :=
  if add_attribs then
    let f1 := set_node_attributes resultForest
      (resultForest.nodes.map fun n =>
        (n, "b_centrality", PyVal.num (betweenness_centrality resultForest n)))
    let f2 := set_node_attributes f1
      (f1.nodes.map fun n =>
        (n, "ev_centrality", PyVal.num (eigenvector_centrality f1 n)))
    let f3 := set_node_attributes f2
      (f2.nodes.map fun n =>
        (n, "deg_centrality", PyVal.num (degree_centrality f2 n)))
    if nameDefined run_pcsfLocals "community" then
      -- the intended fourth attribute: stringified Louvain cluster labels
      Except.ok (set_node_attributes f3
        (f3.nodes.map fun n =>
          (n, "louvain_clusters", PyVal.str (toString (best_partition f3 n)))))
    else Except.error (PyExn.nameError "community")
  else Except.ok resultForest

/-! ## `get_network_details` -/

/-- A pandas DataFrame with a node index and named numeric/label columns. -/
structure PyDataFrame where
  index : List String
  cols : List (String × List PyVal)
deriving DecidableEq, Repr

/-- `nx.get_node_attributes(G, a).values()`: the attribute values of the
nodes carrying attribute `a`, in node order. -/
def nodeAttrValues (G : NxForest) (a : String) : List PyVal :=
  G.nodes.filterMap fun n => (dictLookup G.attrs n).bind fun m => dictLookup m a

/-- Assemble `att_df`: an index of all nodes plus one column per requested
attribute.  Assigning a column whose length differs from the index length
raises `ValueError` in pandas. -/
def buildAttDf (G : NxForest) (atts : List String) : Except PyExn PyDataFrame :=
  if atts.all fun a => (nodeAttrValues G a).length = G.nodes.length then
    Except.ok { index := G.nodes, cols := atts.map fun a => (a, nodeAttrValues G a) }
  else Except.error PyExn.valueError

/-- Comparison on attribute values as pandas sorting would order them. -/
def pyValLe (a b : PyVal) : Bool :=
  match a, b with
  | PyVal.num x, PyVal.num y => x ≤ y
  | PyVal.str x, PyVal.str y => x ≤ y
  | _, _ => false

/-- Insert into a list kept in descending `key` order. -/
def insertDescBy {α : Type} (key : α → PyVal) (x : α) : List α → List α
  | [] => [x]
  | y :: ys => if pyValLe (key x) (key y) then y :: insertDescBy key x ys else x :: y :: ys

/-- Sort a DataFrame's rows by column `s`, descending (`sort_values(s,
ascending=False)`). -/
def sortValuesDesc (df : PyDataFrame) (s : String) : PyDataFrame :=
  let keyOf : ℕ → PyVal := fun i =>
    ((dictLookup df.cols s).getD []).getD i (PyVal.num 0)
  let perm := (List.range df.index.length).foldl (fun l i => insertDescBy keyOf i l) []
  { index := perm.map fun i => df.index.getD i "",
    cols := df.cols.map fun c => (c.1, perm.map fun i => c.2.getD i (PyVal.num 0)) }

/-- Local names bound inside `get_network_details`; `sortBy` is not among
them (the parameter is spelled `sort_by`). -/
def get_network_detailsLocals : List String :=
  ["G", "atts", "sort_by", "att_df", "a"]

/-- `get_network_details(G, atts, sort_by)`: build the attribute table;
when `sort_by` is given, `assert sort_by in att_df.columns` (an
`AssertionError` propagates when it is absent), then the return expression
evaluates the free name `sortBy`, which is unbound and raises `NameError`
before `sort_values` can run. -/
def get_network_details (G : NxForest) (atts : List String) (sort_by : Option String) :
    Except PyExn PyDataFrame :=
  match buildAttDf G atts with
  | Except.error e => Except.error e
  | Except.ok att_df =>
    match sort_by with
    | none => Except.ok att_df
    | some s =>
      if s ∈ att_df.cols.map (fun c => c.1) then
        if nameDefined get_network_detailsLocals "sortBy" then
          Except.ok (sortValuesDesc att_df s)
        else Except.error (PyExn.nameError "sortBy")
      else Except.error PyExn.assertionError

/-! ## `make_solution_similarity_matrix` -/

/-- `itertools.product(ks, ks)`: all ordered pairs of keys. -/
def productPairs (ks : List String) : List (String × String) :=
  ks.foldr (fun k1 acc => ks.map (fun k2 => (k1, k2)) ++ acc) []

/-- The pivoted square similarity matrix
(`pd.DataFrame(...).pivot(index='PCSF1', columns='PCSF2', values='M')`). -/
structure SimMatrix where
  names : List String
  entries : List ((String × String) × ℚ)
deriving DecidableEq, Repr

/-- Compute the `[k1, k2, similarity]` rows; a `ZeroDivisionError` raised
by `_get_similarity` propagates. -/
def simRows (res_dict : List (String × List String)) :
    List (String × String) → Except PyExn (List ((String × String) × ℚ))
  | [] => Except.ok []
  | (k1, k2) :: rest =>
    match _get_similarity ((dictLookup res_dict k1).getD [])
        ((dictLookup res_dict k2).getD []) with
    | Except.error e => Except.error e
    | Except.ok s =>
      match simRows res_dict rest with
      | Except.error e => Except.error e
      | Except.ok rs => Except.ok (((k1, k2), s) :: rs)

/-- Local names bound inside `make_solution_similarity_matrix`; the
variable holding the pivoted matrix is `sim_mat`, and `simMat` is unbound. -/
def make_solution_similarity_matrixLocals : List String :=
  ["res_dict", "combs", "sim_mat", "k1", "k2", "G1", "G2"]

/-- `make_solution_similarity_matrix(res_dict)`: compute the pairwise
Jaccard similarities for every ordered pair of named solutions, pivot them
into a square matrix bound to `sim_mat`, then execute `return simMat`,
which evaluates an unbound name. -/
def make_solution_similarity_matrix (res_dict : List (String × List String)) :
    Except PyExn SimMatrix :=
  let combs := productPairs (res_dict.map fun p => p.1)
  match simRows res_dict combs with
  | Except.error e => Except.error e
  | Except.ok rows =>
    if nameDefined make_solution_similarity_matrixLocals "simMat" then
      Except.ok { names := res_dict.map fun p => p.1, entries := rows }
    else Except.error (PyExn.nameError "simMat")

/-- A two-node graph carrying a `score` attribute, used as concrete input
to `get_network_details`. -/
def gEx : NxForest :=
  ⟨["n1", "n2"], [], [("n1", [("score", PyVal.num 1)]), ("n2", [("score", PyVal.num 5)])]⟩

/-- The attribute DataFrame assembled from `gEx` for `atts = ["score"]`. -/
def dfEx : PyDataFrame :=
  ⟨["n1", "n2"], [("score", [PyVal.num 1, PyVal.num 5])]⟩

/-! ## Dictionary lemmas -/

theorem dictLookup_dictInsert_self {K V : Type} [DecidableEq K]
    (d : List (K × V)) (k : K) (v : V) :
    dictLookup (dictInsert d k v) k = some v := by
  induction d with
  | nil => simp [dictInsert, dictLookup]
  | cons p ps ih =>
    by_cases h : p.1 = k
    · simp [dictInsert, dictLookup, h]
    · simp [dictInsert, dictLookup, h, ih]

theorem dictLookup_dictInsert_ne {K V : Type} [DecidableEq K]
    (d : List (K × V)) (k k' : K) (v : V) (h : k' ≠ k) :
    dictLookup (dictInsert d k v) k' = dictLookup d k' := by
  induction d with
  | nil => simp [dictInsert, dictLookup, Ne.symm h]
  | cons p ps ih =>
    by_cases hp : p.1 = k
    · simp [dictInsert, dictLookup, hp, Ne.symm h]
    · simp [dictInsert, dictLookup, hp, ih]

/-! ## `popRandom` lemmas -/

theorem getElem_not_mem_eraseIdx {α : Type} (l : List α) (i : ℕ) (hi : i < l.length)
    (h : l.Nodup) : l[i] ∉ l.eraseIdx i := by
  rw [List.eraseIdx_eq_take_drop_succ]
  have hl : l = l.take i ++ l[i] :: l.drop (i + 1) := by
    conv_lhs => rw [← List.take_append_drop i l]
    rw [List.drop_eq_getElem_cons hi]
  rw [hl] at h
  rcases List.nodup_append.mp h with ⟨-, hcons, hdisj⟩
  intro hmem
  rcases List.mem_append.mp hmem with hmem | hmem
  · exact hdisj hmem (List.mem_cons_self _ _)
  · exact (List.nodup_cons.mp hcons).1 hmem

theorem popRandom_index_lt (stream : ℕ → ℕ) (idx : ℕ) (c : SPair) (cs : List SPair) :
    stream idx % (c :: cs).length < (c :: cs).length :=
  Nat.mod_lt _ (by simp)

theorem popRandom_fst_mem (stream : ℕ → ℕ) (idx : ℕ) (c : SPair) (cs : List SPair) :
    (popRandom stream idx c cs).1 ∈ c :: cs := by
  have h := popRandom_index_lt stream idx c cs
  simp only [popRandom, List.getD_eq_getElem?_getD, List.getElem?_eq_getElem h,
    Option.getD_some]
  exact List.getElem_mem h

theorem popRandom_snd_length (stream : ℕ → ℕ) (idx : ℕ) (c : SPair) (cs : List SPair) :
    (popRandom stream idx c cs).2.length = cs.length := by
  simp only [popRandom]
  rw [List.length_eraseIdx_of_lt (popRandom_index_lt stream idx c cs)]
  simp

theorem popRandom_snd_sublist (stream : ℕ → ℕ) (idx : ℕ) (c : SPair) (cs : List SPair) :
    List.Sublist (popRandom stream idx c cs).2 (c :: cs) :=
  List.eraseIdx_sublist _ _

theorem popRandom_fst_not_mem_snd (stream : ℕ → ℕ) (idx : ℕ) (c : SPair) (cs : List SPair)
    (h : (c :: cs).Nodup) : (popRandom stream idx c cs).1 ∉ (popRandom stream idx c cs).2 := by
  have hlt := popRandom_index_lt stream idx c cs
  simp only [popRandom, List.getD_eq_getElem?_getD, List.getElem?_eq_getElem hlt,
    Option.getD_some]
  exact getElem_not_mem_eraseIdx _ _ hlt h

/-! ## `combinations2` lemmas -/

theorem combinations2_length (l : List String) :
    (combinations2 l).length = Nat.choose l.length 2 := by
  induction l with
  | nil => simp [combinations2]
  | cons x xs ih =>
    simp [combinations2, ih, Nat.choose_succ_succ, Nat.choose_one_right, Nat.add_comm]

theorem mem_combinations2 {l : List String} {p : SPair} (h : p ∈ combinations2 l) :
    p.1 ∈ l ∧ p.2 ∈ l := by
  induction l with
  | nil => simp [combinations2] at h
  | cons x xs ih =>
    simp only [combinations2, List.mem_append, List.mem_map] at h
    rcases h with ⟨y, hy, rfl⟩ | h
    · exact ⟨List.mem_cons_self _ _, List.mem_cons_of_mem _ hy⟩
    · exact ⟨List.mem_cons_of_mem _ (ih h).1, List.mem_cons_of_mem _ (ih h).2⟩

theorem combinations2_nodup {l : List String} (h : l.Nodup) :
    (combinations2 l).Nodup := by
  induction l with
  | nil => simp [combinations2]
  | cons x xs ih =>
    rcases List.nodup_cons.mp h with ⟨hx, hxs⟩
    refine List.Nodup.append ?_ (ih hxs) ?_
    · exact hxs.map fun a b hab => ((Prod.mk.injEq _ _ _ _).mp hab).2
    · intro p hp1 hp2
      rcases List.mem_map.mp hp1 with ⟨y, hy, rfl⟩
      exact hx (mem_combinations2 hp2).1

/-! ## Sampling-loop lemmas -/

/-- When the sampling loop completes without an exception, it attempted
exactly `k` pairs, all distinct, all drawn from the pending combination
list. -/
theorem pcLoop_ok (G : PyGraph) (stream : ℕ → ℕ) :
    ∀ (k idx : ℕ) (combs : List SPair) (acc : PathDict) (att : List SPair) (d : PathDict),
    combs.Nodup →
    pcLoop G stream k idx combs acc = (att, Except.ok d) →
    att.length = k ∧ att.Nodup ∧ ∀ pr ∈ att, pr ∈ combs := by
  intro k
  induction k with
  | zero =>
    intro idx combs acc att d hnd h
    simp only [pcLoop, Prod.mk.injEq] at h
    rcases h with ⟨h1, -⟩
    subst h1
    simp
  | succ k ih =>
    intro idx combs acc att d hnd h
    cases combs with
    | nil => simp only [pcLoop, Prod.mk.injEq] at h; exact absurd h.2 (by simp)
    | cons c cs =>
      simp only [pcLoop] at h
      cases hd : dijkstra_path_length G (popRandom stream idx c cs).1.1
          (popRandom stream idx c cs).1.2 with
      | ok cost =>
        rw [hd] at h
        simp only [Prod.mk.injEq] at h
        rcases h with ⟨h1, h2⟩
        have hres : pcLoop G stream k (idx + 1) (popRandom stream idx c cs).2
            (dictInsert acc (popRandom stream idx c cs).1 cost) =
            ((pcLoop G stream k (idx + 1) (popRandom stream idx c cs).2
              (dictInsert acc (popRandom stream idx c cs).1 cost)).1, Except.ok d) := by
          rw [← h2]
        have hnd' : (popRandom stream idx c cs).2.Nodup :=
          (popRandom_snd_sublist stream idx c cs).nodup hnd
        rcases ih (idx + 1) _ _ _ _ hnd' hres with ⟨hlen, hnodup, hmem⟩
        subst h1
        refine ⟨by simp [hlen], ?_, ?_⟩
        · exact List.nodup_cons.mpr
            ⟨fun hx => popRandom_fst_not_mem_snd stream idx c cs hnd (hmem _ hx), hnodup⟩
        · intro pr hpr
          rcases List.mem_cons.mp hpr with rfl | hpr
          · exact popRandom_fst_mem stream idx c cs
          · exact (popRandom_snd_sublist stream idx c cs).mem (hmem _ hpr)
      | error e =>
        rw [hd] at h
        cases e with
        | networkXNoPath =>
          rw [show nameDefined get_path_costsLocals "NetworkXNoPath" = false from by decide] at h
          simp only [Bool.false_eq_true, if_false, Prod.mk.injEq] at h
          exact absurd h.2 (by simp)
        | nodeNotFound =>
          simp only [Prod.mk.injEq] at h
          exact absurd h.2 (by simp)

/-- When every pending pair is connected (Dijkstra succeeds on it), the
sampling loop completes, the result dict maps every attempted pair to its
Dijkstra cost, and dict entries whose keys are not pending survive. -/
theorem pcLoop_connected (G : PyGraph) (stream : ℕ → ℕ) :
    ∀ (k idx : ℕ) (combs : List SPair) (acc : PathDict),
    k ≤ combs.length → combs.Nodup →
    (∀ pr ∈ combs, ∃ q, dijkstra_path_length G pr.1 pr.2 = Except.ok q) →
    (∀ pr ∈ combs, dictLookup acc pr = none) →
    ∃ att d, pcLoop G stream k idx combs acc = (att, Except.ok d)
      ∧ (∀ pr ∈ att, ∀ q, dijkstra_path_length G pr.1 pr.2 = Except.ok q →
          dictLookup d pr = some q)
      ∧ (∀ key v, dictLookup acc key = some v → key ∉ combs → dictLookup d key = some v) := by
  intro k
  induction k with
  | zero =>
    intro idx combs acc hk hnd hok hacc
    refine ⟨[], acc, by simp [pcLoop], by simp, fun key v hv _ => hv⟩
  | succ k ih =>
    intro idx combs acc hk hnd hok hacc
    cases combs with
    | nil => simp at hk
    | cons c cs =>
      set pick := (popRandom stream idx c cs).1 with hpick
      have hpickmem : pick ∈ c :: cs := popRandom_fst_mem stream idx c cs
      rcases hok pick hpickmem with ⟨cost, hcost⟩
      have hnd' : (popRandom stream idx c cs).2.Nodup :=
        (popRandom_snd_sublist stream idx c cs).nodup hnd
      have hk' : k ≤ (popRandom stream idx c cs).2.length := by
        rw [popRandom_snd_length]
        have := hk
        simp only [List.length_cons] at this
        omega
      have hok' : ∀ pr ∈ (popRandom stream idx c cs).2,
          ∃ q, dijkstra_path_length G pr.1 pr.2 = Except.ok q :=
        fun pr hpr => hok pr ((popRandom_snd_sublist stream idx c cs).mem hpr)
      have hpicknotmem : pick ∉ (popRandom stream idx c cs).2 :=
        popRandom_fst_not_mem_snd stream idx c cs hnd
      have hacc' : ∀ pr ∈ (popRandom stream idx c cs).2,
          dictLookup (dictInsert acc pick cost) pr = none := by
        intro pr hpr
        have hne : pr ≠ pick := by
          intro hh
          rw [hh] at hpr
          exact hpicknotmem hpr
        rw [dictLookup_dictInsert_ne _ _ _ _ hne]
        exact hacc pr ((popRandom_snd_sublist stream idx c cs).mem hpr)
      rcases ih (idx + 1) (popRandom stream idx c cs).2 (dictInsert acc pick cost)
        hk' hnd' hok' hacc' with ⟨att', d, heq, hlook, hpres⟩
      refine ⟨pick :: att', d, ?_, ?_, ?_⟩
      · simp only [pcLoop, ← hpick, hcost, heq]
      · intro pr hpr q hq
        rcases List.mem_cons.mp hpr with hpr | hpr
        · subst hpr
          have hlast : dictLookup d pick = some cost :=
            hpres pick cost (dictLookup_dictInsert_self _ _ _) hpicknotmem
          rw [hcost] at hq
          cases hq
          exact hlast
        · exact hlook pr hpr q hq
      · intro key v hv hkey
        have hkeyne : key ≠ pick := fun hh => hkey (hh ▸ hpickmem)
        refine hpres key v ?_ ?_
        · rw [dictLookup_dictInsert_ne _ _ _ _ hkeyne]; exact hv
        · exact fun hmem => hkey ((popRandom_snd_sublist stream idx c cs).mem hmem)

/-- Unfolding lemma: one loop step whose Dijkstra call succeeds. -/
theorem pcLoop_succ_ok (G : PyGraph) (stream : ℕ → ℕ) (k idx : ℕ) (c : SPair)
    (cs : List SPair) (acc : PathDict) (cost : ℚ)
    (hd : dijkstra_path_length G ((popRandom stream idx c cs).1).1
      ((popRandom stream idx c cs).1).2 = Except.ok cost) :
    pcLoop G stream (k + 1) idx (c :: cs) acc =
      ((popRandom stream idx c cs).1 ::
        (pcLoop G stream k (idx + 1) (popRandom stream idx c cs).2
          (dictInsert acc (popRandom stream idx c cs).1 cost)).1,
       (pcLoop G stream k (idx + 1) (popRandom stream idx c cs).2
          (dictInsert acc (popRandom stream idx c cs).1 cost)).2) := by
  simp only [pcLoop, hd]

/-- Unfolding lemma: one loop step that hits a disconnected pair.  The
`except NetworkXNoPath:` clause evaluates an unbound name, so the loop
aborts with a `NameError`. -/
theorem pcLoop_succ_noPath (G : PyGraph) (stream : ℕ → ℕ) (k idx : ℕ) (c : SPair)
    (cs : List SPair) (acc : PathDict)
    (hd : dijkstra_path_length G ((popRandom stream idx c cs).1).1
      ((popRandom stream idx c cs).1).2 = Except.error NxError.networkXNoPath) :
    pcLoop G stream (k + 1) idx (c :: cs) acc =
      ([(popRandom stream idx c cs).1], Except.error (PyExn.nameError "NetworkXNoPath")) := by
  have hname : nameDefined get_path_costsLocals "NetworkXNoPath" = false := by decide
  simp only [pcLoop, hd, hname, Bool.false_eq_true, if_false]

/-! ## Lemmas about dict lookups and key products -/

theorem dictLookup_mem {K V : Type} [DecidableEq K] :
    ∀ (d : List (K × V)) (k : K) (v : V), dictLookup d k = some v → (k, v) ∈ d := by
  intro d
  induction d with
  | nil => intro k v h; simp [dictLookup] at h
  | cons p ps ih =>
    intro k v h
    simp only [dictLookup] at h
    by_cases hp : p.1 = k
    · rw [if_pos hp] at h
      cases h
      exact (by rw [← hp]; exact List.mem_cons_self _ _ : (k, p.2) ∈ p :: ps)
    · rw [if_neg hp] at h
      exact List.mem_cons_of_mem _ (ih k v h)

theorem dictLookup_isSome_of_mem_keys {K V : Type} [DecidableEq K] :
    ∀ (d : List (K × V)) (k : K), k ∈ d.map (fun p => p.1) → ∃ v, dictLookup d k = some v := by
  intro d
  induction d with
  | nil => intro k h; simp at h
  | cons p ps ih =>
    intro k h
    by_cases hp : p.1 = k
    · exact ⟨p.2, by simp [dictLookup, hp]⟩
    · have h' : k ∈ ps.map (fun q => q.1) := by
        rcases List.mem_map.mp h with ⟨q, hq, hqk⟩
        rcases List.mem_cons.mp hq with hq' | hq'
        · exact absurd (hq' ▸ hqk) hp
        · exact List.mem_map.mpr ⟨q, hq', hqk⟩
      rcases ih k h' with ⟨v, hv⟩
      exact ⟨v, by simp [dictLookup, hp, hv]⟩

theorem mem_foldrProd {l ks : List String} {p : String × String}
    (h : p ∈ l.foldr (fun k1 acc => ks.map (fun k2 => (k1, k2)) ++ acc) []) :
    p.1 ∈ l ∧ p.2 ∈ ks := by
  induction l with
  | nil => simp at h
  | cons x xs ih =>
    simp only [List.foldr_cons, List.mem_append, List.mem_map] at h
    rcases h with ⟨k2, hk2, rfl⟩ | h
    · exact ⟨List.mem_cons_self _ _, hk2⟩
    · exact ⟨List.mem_cons_of_mem _ (ih h).1, (ih h).2⟩

theorem mem_productPairs {ks : List String} {p : String × String}
    (h : p ∈ productPairs ks) : p.1 ∈ ks ∧ p.2 ∈ ks :=
  mem_foldrProd h

/-- When every looked-up solution list is non-empty, the similarity rows
all compute (no division by zero). -/
theorem simRows_ok (res_dict : List (String × List String)) :
    ∀ combs : List (String × String),
    (∀ pr ∈ combs, (dictLookup res_dict pr.1).getD [] ≠ []) →
    ∃ rows, simRows res_dict combs = Except.ok rows := by
  intro combs
  induction combs with
  | nil => exact fun _ => ⟨[], rfl⟩
  | cons pr rest ih =>
    intro h
    obtain ⟨pr1, pr2⟩ := pr
    have h1 : (dictLookup res_dict pr1).getD [] ≠ [] :=
      h (pr1, pr2) (List.mem_cons_self _ _)
    have hcard : (((dictLookup res_dict pr1).getD []).toFinset ∪
        ((dictLookup res_dict pr2).getD []).toFinset).card ≠ 0 := by
      intro hc
      have hempty := Finset.card_eq_zero.mp hc
      rw [Finset.union_eq_empty] at hempty
      exact h1 ((List.toFinset_eq_empty_iff _).mp hempty.1)
    rcases ih (fun q hq => h q (List.mem_cons_of_mem _ hq)) with ⟨rows, hrows⟩
    refine ⟨((pr1, pr2),
      (((((dictLookup res_dict pr1).getD []).toFinset ∩
          ((dictLookup res_dict pr2).getD []).toFinset).card : ℚ) /
        ((((dictLookup res_dict pr1).getD []).toFinset ∪
          ((dictLookup res_dict pr2).getD []).toFinset).card : ℚ))) :: rows, ?_⟩
    simp only [simRows, _get_similarity, if_neg hcard, hrows]

/-! ## Claim theorems -/

/-- C1: the claim says `run_pcsf` with `add_attribs` at its default attaches
four node attributes (betweenness, eigenvector and degree centrality plus a
stringified community label) to the returned forest.  The code instead
raises `NameError` on every such call: the fourth attribute block evaluates
`community.best_partition`, and `community` was never imported.  For every
solver output and every behaviour of the external centrality and clustering
algorithms, the call errors out. -/
theorem run_pcsf_default_add_attribs_raises_community (resultForest : NxForest)
    (betweenness_centrality eigenvector_centrality degree_centrality :
      NxForest → String → ℚ)
    (best_partition : NxForest → String → ℕ) (time : Bool) :
    run_pcsf resultForest betweenness_centrality eigenvector_centrality degree_centrality
      best_partition time true = Except.error (PyExn.nameError "community") := by
  have h : nameDefined run_pcsfLocals "community" = false := by decide
  simp [run_pcsf, h]

/-- C4: the claim says `make_solution_similarity_matrix` returns the square
pivoted matrix of pairwise set-overlap similarities.  The code computes the
similarities and the pivot, binding them to `sim_mat`, but its return
statement reads the unbound name `simMat`, so every call on well-formed
input (all solution lists non-empty, so no division by zero intervenes)
raises `NameError` instead of returning. -/
theorem make_solution_similarity_matrix_raises_simMat
    (res_dict : List (String × List String)) (h : ∀ p ∈ res_dict, p.2 ≠ []) :
    make_solution_similarity_matrix res_dict = Except.error (PyExn.nameError "simMat") := by
  have hpairs : ∀ pr ∈ productPairs (res_dict.map fun p => p.1),
      (dictLookup res_dict pr.1).getD [] ≠ [] := by
    intro pr hpr
    rcases mem_productPairs hpr with ⟨h1, -⟩
    rcases dictLookup_isSome_of_mem_keys res_dict pr.1 h1 with ⟨v, hv⟩
    rw [hv]
    simpa using h _ (dictLookup_mem _ _ _ hv)
  rcases simRows_ok res_dict _ hpairs with ⟨rows, hrows⟩
  have hname : nameDefined make_solution_similarity_matrixLocals "simMat" = false := by decide
  simp only [make_solution_similarity_matrix, hrows, hname, Bool.false_eq_true, if_false]

/-- Witness for C4 at the concrete dictionary `{"s1": ["A"], "s2": ["A","B"]}`. -/
theorem make_solution_similarity_matrix_raises_simMat_witness :
    (∀ p ∈ [("s1", ["A"]), ("s2", ["A", "B"])], p.2 ≠ ([] : List String))
    ∧ make_solution_similarity_matrix [("s1", ["A"]), ("s2", ["A", "B"])] =
        Except.error (PyExn.nameError "simMat") :=
  ⟨by decide, make_solution_similarity_matrix_raises_simMat _ (by decide)⟩

/-- C5: the claim says that with `sort_by` naming an existing column the
function returns the table sorted descending, and with a missing column it
fails the assertion.  The second half is what the code does; the first half
is not: once the assertion passes, the return expression evaluates the
unbound name `sortBy` (the parameter is spelled `sort_by`), raising
`NameError` instead of returning a sorted table. -/
theorem get_network_details_sort_by_raises_sortBy (G : NxForest) (atts : List String)
    (s : String) (df : PyDataFrame) (hdf : buildAttDf G atts = Except.ok df) :
    (s ∈ df.cols.map (fun c => c.1) →
      get_network_details G atts (some s) = Except.error (PyExn.nameError "sortBy"))
    ∧ (s ∉ df.cols.map (fun c => c.1) →
      get_network_details G atts (some s) = Except.error PyExn.assertionError) := by
  have hname : nameDefined get_network_detailsLocals "sortBy" = false := by decide
  constructor
  · intro hs
    simp [get_network_details, hdf, hs, hname]
  · intro hs
    simp [get_network_details, hdf, hs]

/-- Witness for C5 on the concrete two-node graph `gEx`: sorting by the
existing `score` column raises `NameError`, sorting by a missing column
fails the assertion. -/
theorem get_network_details_sort_by_raises_sortBy_witness :
    buildAttDf gEx ["score"] = Except.ok dfEx
    ∧ "score" ∈ dfEx.cols.map (fun c => c.1)
    ∧ get_network_details gEx ["score"] (some "score") =
        Except.error (PyExn.nameError "sortBy")
    ∧ get_network_details gEx ["score"] (some "missing") =
        Except.error PyExn.assertionError :=
  ⟨rfl, by decide,
   (get_network_details_sort_by_raises_sortBy gEx ["score"] "score" dfEx rfl).1 (by decide),
   (get_network_details_sort_by_raises_sortBy gEx ["score"] "missing" dfEx rfl).2 (by decide)⟩

/-- C6: for a sampling proportion outside `(0, 1]`, `get_path_costs` prints
the validation message and returns `None` (no exception), performing no
graph construction and attempting no pair: its entire observable behaviour
is the logged message, an empty attempted list, and the null return. -/
theorem get_path_costs_invalid_proportion_returns_none (seeds : List String)
    (adj_list : AdjList) (print_prog : Bool) (p : ℚ) (stream : ℕ → ℕ)
    (h : p ≤ 0 ∨ 1 < p) :
    get_path_costs seeds adj_list print_prog p stream =
      { log := ["Sampled proportion must be in (0, 1]"], attempted := [],
        outcome := Except.ok none } := by
  rw [get_path_costs, if_neg]
  rintro ⟨h1, h2⟩
  rcases h with h | h
  · exact absurd h1 (not_lt.mpr h)
  · exact absurd h2 (not_le.mpr h)

/-- Witness for C6 at proportion `2`. -/
theorem get_path_costs_invalid_proportion_returns_none_witness :
    ((2 : ℚ) ≤ 0 ∨ 1 < (2 : ℚ))
    ∧ get_path_costs ["A"] ⟨"head", "tail", "cost", []⟩ false 2 (fun _ => 0) =
      { log := ["Sampled proportion must be in (0, 1]"], attempted := [],
        outcome := Except.ok none } :=
  ⟨Or.inr (by norm_num),
   get_path_costs_invalid_proportion_returns_none _ _ _ _ _ (Or.inr (by norm_num))⟩

/-- C8: translation is lenient: an ID found in the map is replaced by its
mapped value (at the same position), an ID absent from the map passes
through unchanged — so on a list of unmapped IDs both converters are the
identity — and the spec's end-to-end example holds. -/
theorem convert_ids_lenient_mapping :
    (∀ (mapRows : List MapRow) (ids : List String),
      (∀ s ∈ ids,
        dictLookup (dictOfPairs (mapRows.map fun r => (r.string_id, r.display_name))) s
          = none) →
      convert_to_gene_symbol ids mapRows = ids)
    ∧ (∀ (mapRows : List MapRow) (genes : List String),
      (∀ g ∈ genes,
        dictLookup (dictOfPairs (mapRows.map fun r => (r.display_name, r.string_id))) g
          = none) →
      convert_to_string_id genes mapRows = genes)
    ∧ (∀ (mapRows : List MapRow) (ids : List String) (i : ℕ) (s v : String),
      ids[i]? = some s →
      dictLookup (dictOfPairs (mapRows.map fun r => (r.string_id, r.display_name))) s
        = some v →
      (convert_to_gene_symbol ids mapRows)[i]? = some v)
    ∧ convert_to_gene_symbol ["9606.ENSP1", "UNKNOWN_ID"] [⟨"9606.ENSP1", "TP53"⟩]
        = ["TP53", "UNKNOWN_ID"] := by
  refine ⟨?_, ?_, ?_, by decide⟩
  · intro mapRows ids hnone
    simp only [convert_to_gene_symbol]
    calc ids.map (fun s =>
          (dictLookup (dictOfPairs (mapRows.map fun r => (r.string_id, r.display_name))) s).getD s)
        = ids.map (fun s => s) :=
          List.map_congr_left fun s hs => by rw [hnone s hs]; rfl
      _ = ids := List.map_id' ids
  · intro mapRows genes hnone
    simp only [convert_to_string_id]
    calc genes.map (fun g =>
          (dictLookup (dictOfPairs (mapRows.map fun r => (r.display_name, r.string_id))) g).getD g)
        = genes.map (fun g => g) :=
          List.map_congr_left fun g hg => by rw [hnone g hg]; rfl
      _ = genes := List.map_id' genes
  · intro mapRows ids i s v hids hlook
    simp only [convert_to_gene_symbol, List.getElem?_map, hids, Option.map_some']
    rw [hlook, Option.getD_some]

/-- Witness for C8: an unmapped ID passes through each converter, and a
mapped ID is translated in place. -/
theorem convert_ids_lenient_mapping_witness :
    convert_to_gene_symbol ["X1"] [] = ["X1"]
    ∧ convert_to_string_id ["G1"] [] = ["G1"]
    ∧ (convert_to_gene_symbol ["9606.ENSP1"] [⟨"9606.ENSP1", "TP53"⟩])[0]? = some "TP53" :=
  ⟨convert_ids_lenient_mapping.1 [] ["X1"] (fun s _ => rfl),
   convert_ids_lenient_mapping.2.1 [] ["G1"] (fun g _ => rfl),
   convert_ids_lenient_mapping.2.2.1 [⟨"9606.ENSP1", "TP53"⟩] ["9606.ENSP1"] 0
     "9606.ENSP1" "TP53" (by decide) (by decide)⟩

/-- C9: for non-empty lists the set-overlap similarity is symmetric, and
the similarity of a non-empty list with itself is exactly `1`. -/
theorem similarity_symmetric_and_self_one (a b : List String)
    (ha : a ≠ []) (hb : b ≠ []) :
    _get_similarity a b = _get_similarity b a ∧ _get_similarity a a = Except.ok 1 := by
  have hcard : a.toFinset.card ≠ 0 := by
    intro hc
    exact ha ((List.toFinset_eq_empty_iff _).mp (Finset.card_eq_zero.mp hc))
  constructor
  · rw [_get_similarity, _get_similarity, Finset.union_comm, Finset.inter_comm]
  · rw [_get_similarity]
    simp only [Finset.union_self, Finset.inter_self, if_neg hcard]
    rw [div_self (by exact_mod_cast hcard)]

/-- Witness for C9 on the non-empty lists `["p1"]` and `["p2"]`. -/
theorem similarity_symmetric_and_self_one_witness :
    _get_similarity ["p1"] ["p2"] = _get_similarity ["p2"] ["p1"]
    ∧ _get_similarity ["p1"] ["p1"] = Except.ok 1 :=
  similarity_symmetric_and_self_one ["p1"] ["p2"] (by simp) (by simp)

/-- C10: on two empty lists `_get_similarity` divides by the size of the
empty union and raises `ZeroDivisionError` rather than returning a number;
under the non-emptiness precondition the division is well-defined and a
number is returned. -/
theorem similarity_empty_union_divide_by_zero :
    _get_similarity [] [] = Except.error PyExn.zeroDivisionError
    ∧ ∀ a b : List String, a ≠ [] → b ≠ [] →
        ∃ q, _get_similarity a b = Except.ok q := by
  constructor
  · simp [_get_similarity]
  · intro a b ha hb
    have hcard : (a.toFinset ∪ b.toFinset).card ≠ 0 := by
      intro hc
      have hu := Finset.card_eq_zero.mp hc
      rw [Finset.union_eq_empty] at hu
      exact ha ((List.toFinset_eq_empty_iff _).mp hu.1)
    exact ⟨((a.toFinset ∩ b.toFinset).card : ℚ) / ((a.toFinset ∪ b.toFinset).card : ℚ),
      by simp only [_get_similarity, if_neg hcard]⟩

/-- Witness for C10's non-emptiness conjunct at `["p1"]`, `["p2"]`. -/
theorem similarity_empty_union_divide_by_zero_witness :
    (["p1"] : List String) ≠ [] ∧ ∃ q, _get_similarity ["p1"] ["p2"] = Except.ok q :=
  ⟨by simp, similarity_empty_union_divide_by_zero.2 ["p1"] ["p2"] (by simp) (by simp)⟩

/-- C2: contrary to the claim, a sampled pair with no connecting path is
not skipped.  When `dijkstra_path_length` raises `NetworkXNoPath`, the
source's `except NetworkXNoPath:` clause evaluates the unbound name
`NetworkXNoPath` (only `networkx as nx` was imported), so the call aborts
with a `NameError` instead of omitting the pair's key: for the seeds
`A, B` lying in two components of the graph of `adjSplit`, and every
random stream, the single pair `(A, B)` is attempted and the exception
propagates. -/
theorem get_path_costs_no_path_raises_nameError (stream : ℕ → ℕ) :
    (get_path_costs ["A", "B"] adjSplit false 1 stream).outcome =
      Except.error (PyExn.nameError "NetworkXNoPath")
    ∧ (get_path_costs ["A", "B"] adjSplit false 1 stream).attempted = [("A", "B")] := by
  have hdij : dijkstra_path_length (from_pandas_edgelist adjSplit) "A" "B" =
      Except.error NxError.networkXNoPath := by
    norm_num +decide [dijkstra_path_length, from_pandas_edgelist, adjSplit, insertNode,
      upsertEdge, sameEdge, dictInsert, dictLookup, directedEdges, edgeCost, relaxTimes,
      relaxAll, relaxTo, List.foldl_cons, List.foldl_nil, List.foldr_cons, List.foldr_nil]
  have hpopa : (popRandom stream 0 ("A", "B") []).1 = ("A", "B") := by
    simp [popRandom, Nat.mod_one]
  have hloop : pcLoop (from_pandas_edgelist adjSplit) stream 1 0 [("A", "B")] [] =
      ([("A", "B")], Except.error (PyExn.nameError "NetworkXNoPath")) := by
    rw [show (1 : ℕ) = 0 + 1 from rfl,
      pcLoop_succ_noPath _ stream 0 0 ("A", "B") [] [] (by rw [hpopa]; exact hdij), hpopa]
  have hmain : get_path_costs ["A", "B"] adjSplit false 1 stream =
      { log := [], attempted := [("A", "B")],
        outcome := Except.error (PyExn.nameError "NetworkXNoPath") } := by
    rw [get_path_costs, if_pos (⟨by norm_num, le_refl 1⟩ : (0 : ℚ) < 1 ∧ (1 : ℚ) ≤ 1)]
    have hcombs : combinations2 ["A", "B"] = [("A", "B")] := rfl
    norm_num [hcombs, hloop, Int.toNat_one, Except.map]
  exact ⟨by rw [hmain], by rw [hmain]⟩

/-- C3: the spec's end-to-end example.  For the edge list
`[(A,B,1),(B,C,2)]` (weight column named `cost`), seeds `[A,B,C]` and
proportion `1`, and for every behaviour of the random sampler, the call
returns a dict mapping the pair `(A,B)` to `1`, `(A,C)` to `3` and
`(B,C)` to `2`. -/
theorem get_path_costs_end_to_end_example (stream : ℕ → ℕ) :
    ∃ d : PathDict,
      (get_path_costs ["A", "B", "C"] adjABC false 1 stream).outcome = Except.ok (some d)
      ∧ dictLookup d ("A", "B") = some 1
      ∧ dictLookup d ("A", "C") = some 3
      ∧ dictLookup d ("B", "C") = some 2 := by
  have hnd : (["A", "B", "C"] : List String).Nodup := by decide
  have hcombs : combinations2 ["A", "B", "C"] = [("A", "B"), ("A", "C"), ("B", "C")] := rfl
  have hAB : dijkstra_path_length (from_pandas_edgelist adjABC) "A" "B" = Except.ok 1 := by
    norm_num +decide [dijkstra_path_length, from_pandas_edgelist, adjABC, insertNode,
      upsertEdge, sameEdge, dictInsert, dictLookup, directedEdges, edgeCost, relaxTimes,
      relaxAll, relaxTo, List.foldl_cons, List.foldl_nil, List.foldr_cons, List.foldr_nil]
  have hAC : dijkstra_path_length (from_pandas_edgelist adjABC) "A" "C" = Except.ok 3 := by
    norm_num +decide [dijkstra_path_length, from_pandas_edgelist, adjABC, insertNode,
      upsertEdge, sameEdge, dictInsert, dictLookup, directedEdges, edgeCost, relaxTimes,
      relaxAll, relaxTo, List.foldl_cons, List.foldl_nil, List.foldr_cons, List.foldr_nil]
  have hBC : dijkstra_path_length (from_pandas_edgelist adjABC) "B" "C" = Except.ok 2 := by
    norm_num +decide [dijkstra_path_length, from_pandas_edgelist, adjABC, insertNode,
      upsertEdge, sameEdge, dictInsert, dictLookup, directedEdges, edgeCost, relaxTimes,
      relaxAll, relaxTo, List.foldl_cons, List.foldl_nil, List.foldr_cons, List.foldr_nil]
  have hok : ∀ pr ∈ combinations2 ["A", "B", "C"],
      ∃ q, dijkstra_path_length (from_pandas_edgelist adjABC) pr.1 pr.2 = Except.ok q := by
    rw [hcombs]
    intro pr hpr
    fin_cases hpr
    · exact ⟨1, hAB⟩
    · exact ⟨3, hAC⟩
    · exact ⟨2, hBC⟩
  have hlen : 3 ≤ (combinations2 ["A", "B", "C"]).length := by decide
  obtain ⟨att, d, heq, hlook, -⟩ :=
    pcLoop_connected (from_pandas_edgelist adjABC) stream 3 0
      (combinations2 ["A", "B", "C"]) [] hlen (combinations2_nodup hnd) hok
      (fun pr _ => rfl)
  obtain ⟨hattlen, hattnd, hattsub⟩ :=
    pcLoop_ok (from_pandas_edgelist adjABC) stream 3 0 (combinations2 ["A", "B", "C"]) []
      att d (combinations2_nodup hnd) heq
  have hall : ∀ pr ∈ combinations2 ["A", "B", "C"], pr ∈ att := by
    intro pr hpr
    have hsubF : att.toFinset ⊆ (combinations2 ["A", "B", "C"]).toFinset := fun x hx =>
      List.mem_toFinset.mpr (hattsub x (List.mem_toFinset.mp hx))
    have hcard1 : att.toFinset.card = 3 := by
      rw [List.toFinset_card_of_nodup hattnd, hattlen]
    have hcard2 : (combinations2 ["A", "B", "C"]).toFinset.card = 3 := by
      rw [List.toFinset_card_of_nodup (combinations2_nodup hnd), hcombs]
      decide
    have heqF : att.toFinset = (combinations2 ["A", "B", "C"]).toFinset :=
      Finset.eq_of_subset_of_card_le hsubF (le_of_eq (hcard2.trans hcard1.symm))
    have hmem := List.mem_toFinset.mpr hpr
    rw [← heqF] at hmem
    exact List.mem_toFinset.mp hmem
  refine ⟨d, ?_, ?_, ?_, ?_⟩
  · rw [get_path_costs, if_pos (⟨by norm_num, le_refl 1⟩ : (0 : ℚ) < 1 ∧ (1 : ℚ) ≤ 1)]
    have hsamp : (Int.floor (((combinations2 ["A", "B", "C"]).length : ℚ) * 1)).toNat = 3 := by
      rw [hcombs]
      norm_num
      decide
    simp only [hsamp, heq, Except.map]
  · exact hlook ("A", "B") (hall _ (by rw [hcombs]; simp)) 1 hAB
  · exact hlook ("A", "C") (hall _ (by rw [hcombs]; simp)) 3 hAC
  · exact hlook ("B", "C") (hall _ (by rw [hcombs]; simp)) 2 hBC

/-- C7 (amended): for distinct seeds and a proportion in `(0,1]`, provided
the call actually returns a result (the claim as stated fails when a
disconnected sampled pair aborts the loop, see the counterexample), the
pairs attempted are exactly `int(p * C(n,2))` many, pairwise distinct, and
drawn without replacement from the `C(n,2)` itertools combinations. -/
theorem get_path_costs_sample_count (seeds : List String) (adj_list : AdjList)
    (print_prog : Bool) (p : ℚ) (stream : ℕ → ℕ) (d : PathDict)
    (hnd : seeds.Nodup) (hp0 : 0 < p) (hp1 : p ≤ 1)
    (h : (get_path_costs seeds adj_list print_prog p stream).outcome = Except.ok (some d)) :
    (get_path_costs seeds adj_list print_prog p stream).attempted.length =
      (Int.floor (p * (Nat.choose seeds.length 2 : ℚ))).toNat
    ∧ (get_path_costs seeds adj_list print_prog p stream).attempted.Nodup
    ∧ ∀ pr ∈ (get_path_costs seeds adj_list print_prog p stream).attempted,
        pr ∈ combinations2 seeds := by
  rw [get_path_costs, if_pos ⟨hp0, hp1⟩] at h ⊢
  simp only at h ⊢
  rcases hres : (pcLoop (from_pandas_edgelist adj_list) stream
      (Int.floor (((combinations2 seeds).length : ℚ) * p)).toNat 0
      (combinations2 seeds) []).2 with e | dd
  · rw [hres] at h
    simp [Except.map] at h
  · rw [hres] at h
    simp only [Except.map, Except.ok.injEq, Option.some.injEq] at h
    rw [h] at hres
    have heq2 : pcLoop (from_pandas_edgelist adj_list) stream
        (Int.floor (((combinations2 seeds).length : ℚ) * p)).toNat 0
        (combinations2 seeds) [] =
        ((pcLoop (from_pandas_edgelist adj_list) stream
          (Int.floor (((combinations2 seeds).length : ℚ) * p)).toNat 0
          (combinations2 seeds) []).1, Except.ok d) := by
      rw [← hres]
    obtain ⟨hlen, hnodup, hsub⟩ :=
      pcLoop_ok (from_pandas_edgelist adj_list) stream _ 0 (combinations2 seeds) [] _ d
        (combinations2_nodup hnd) heq2
    refine ⟨?_, hnodup, hsub⟩
    rw [hlen, combinations2_length, mul_comm]

/-- Witness for C7's amended statement: two connected seeds, proportion
`1`, a constant random stream: the call returns, and exactly
`int(1 * C(2,2)) = 1` pair was attempted. -/
theorem get_path_costs_sample_count_witness :
    (["A", "B"] : List String).Nodup
    ∧ (0 : ℚ) < 1 ∧ (1 : ℚ) ≤ 1
    ∧ (get_path_costs ["A", "B"] adjOne false 1 (fun _ => 0)).outcome =
        Except.ok (some [(("A", "B"), 1)])
    ∧ (get_path_costs ["A", "B"] adjOne false 1 (fun _ => 0)).attempted.length =
        (Int.floor ((1 : ℚ) * (Nat.choose (["A", "B"] : List String).length 2 : ℚ))).toNat := by
  have hdij : dijkstra_path_length (from_pandas_edgelist adjOne) "A" "B" = Except.ok 1 := by
    norm_num +decide [dijkstra_path_length, from_pandas_edgelist, adjOne, insertNode,
      upsertEdge, sameEdge, dictInsert, dictLookup, directedEdges, edgeCost, relaxTimes,
      relaxAll, relaxTo, List.foldl_cons, List.foldl_nil, List.foldr_cons, List.foldr_nil]
  have hpopa : (popRandom (fun _ => 0) 0 ("A", "B") []).1 = ("A", "B") := by decide
  have hpopb : (popRandom (fun _ => 0) 0 ("A", "B") []).2 = [] := by decide
  have hloop : pcLoop (from_pandas_edgelist adjOne) (fun _ => 0) 1 0 [("A", "B")] [] =
      ([("A", "B")], Except.ok [(("A", "B"), 1)]) := by
    rw [show (1 : ℕ) = 0 + 1 from rfl,
      pcLoop_succ_ok _ (fun _ => 0) 0 0 ("A", "B") [] [] 1 (by rw [hpopa]; exact hdij),
      hpopa, hpopb]
    rfl
  have heval : get_path_costs ["A", "B"] adjOne false 1 (fun _ => 0) =
      { log := [], attempted := [("A", "B")],
        outcome := Except.ok (some [(("A", "B"), 1)]) } := by
    rw [get_path_costs, if_pos (⟨by norm_num, le_refl 1⟩ : (0 : ℚ) < 1 ∧ (1 : ℚ) ≤ 1)]
    have hcombs : combinations2 ["A", "B"] = [("A", "B")] := rfl
    norm_num [hcombs, hloop, Int.toNat_one, Except.map]
  refine ⟨by decide, by norm_num, le_refl 1, by rw [heval], ?_⟩
  exact (get_path_costs_sample_count ["A", "B"] adjOne false 1 (fun _ => 0)
    [(("A", "B"), 1)] (by decide) (by norm_num) (le_refl 1) (by rw [heval])).1

/-- Counterexample to C7 as stated: seeds `A, B, C` with `C` disconnected,
proportion `1`, and the constant random stream.  The loop attempts
`(A,B)`, then hits the disconnected pair `(A,C)` and aborts with a
`NameError`, so only `2` pairs were attempted although
`int(1 * C(3,2)) = 3`. -/
theorem get_path_costs_sample_count_cex :
    ¬ ((get_path_costs ["A", "B", "C"] adjPartial false 1 (fun _ => 0)).attempted.length =
        (Int.floor ((1 : ℚ) *
          (Nat.choose (["A", "B", "C"] : List String).length 2 : ℚ))).toNat) := by
  have hdAB : dijkstra_path_length (from_pandas_edgelist adjPartial) "A" "B" =
      Except.ok 1 := by
    norm_num +decide [dijkstra_path_length, from_pandas_edgelist, adjPartial, insertNode,
      upsertEdge, sameEdge, dictInsert, dictLookup, directedEdges, edgeCost, relaxTimes,
      relaxAll, relaxTo, List.foldl_cons, List.foldl_nil, List.foldr_cons, List.foldr_nil]
  have hdAC : dijkstra_path_length (from_pandas_edgelist adjPartial) "A" "C" =
      Except.error NxError.networkXNoPath := by
    norm_num +decide [dijkstra_path_length, from_pandas_edgelist, adjPartial, insertNode,
      upsertEdge, sameEdge, dictInsert, dictLookup, directedEdges, edgeCost, relaxTimes,
      relaxAll, relaxTo, List.foldl_cons, List.foldl_nil, List.foldr_cons, List.foldr_nil]
  have hpop1a : (popRandom (fun _ => 0) 0 ("A", "B") [("A", "C"), ("B", "C")]).1 =
      ("A", "B") := by decide
  have hpop1b : (popRandom (fun _ => 0) 0 ("A", "B") [("A", "C"), ("B", "C")]).2 =
      [("A", "C"), ("B", "C")] := by decide
  have hpop2a : (popRandom (fun _ => 0) 1 ("A", "C") [("B", "C")]).1 = ("A", "C") := by
    decide
  have hloop : pcLoop (from_pandas_edgelist adjPartial) (fun _ => 0) 3 0
      [("A", "B"), ("A", "C"), ("B", "C")] [] =
      ([("A", "B"), ("A", "C")], Except.error (PyExn.nameError "NetworkXNoPath")) := by
    rw [show (3 : ℕ) = 2 + 1 from rfl,
      pcLoop_succ_ok _ (fun _ => 0) 2 0 ("A", "B") [("A", "C"), ("B", "C")] [] 1
        (by rw [hpop1a]; exact hdAB),
      hpop1a, hpop1b,
      show dictInsert ([] : PathDict) ("A", "B") 1 = [(("A", "B"), 1)] from rfl,
      show (2 : ℕ) = 1 + 1 from rfl,
      pcLoop_succ_noPath _ (fun _ => 0) 1 1 ("A", "C") [("B", "C")] [(("A", "B"), 1)]
        (by rw [hpop2a]; exact hdAC),
      hpop2a]
  have heval : get_path_costs ["A", "B", "C"] adjPartial false 1 (fun _ => 0) =
      { log := [], attempted := [("A", "B"), ("A", "C")],
        outcome := Except.error (PyExn.nameError "NetworkXNoPath") } := by
    rw [get_path_costs, if_pos (⟨by norm_num, le_refl 1⟩ : (0 : ℚ) < 1 ∧ (1 : ℚ) ≤ 1)]
    have hcombs : combinations2 ["A", "B", "C"] =
      [("A", "B"), ("A", "C"), ("B", "C")] := rfl
    have hsamp : (Int.floor ((([("A", "B"), ("A", "C"), ("B", "C")] :
        List SPair).length : ℚ) * 1)).toNat = 3 := by
      norm_num
      decide
    simp only [hcombs, hsamp, hloop, Except.map]
  rw [heval]
  have h3 : (Int.floor ((1 : ℚ) *
      (Nat.choose (["A", "B", "C"] : List String).length 2 : ℚ))).toNat = 3 := by
    norm_num [Nat.choose]
    decide
  rw [h3]
  decide

end PcsfTools
